import Mathlib

/-!
Verification of the Agent-Wolves-Game orchestration core.

Shallow embedding of the state store (`src/game_state.py`), the night
resolution and witch handling of the engine (`src/game_engine.py`), the
voting system (`src/voting_system.py`), agent memory
(`src/ai_agent.py`), the seer target analysis
(`src/special_roles_thinking.py`) and the witch agent
(`src/agents/role_agents/witch_agent.py`, `src/agents/tools/witch_tools.py`).
Python dicts become structures, lists stay lists, and the LLM calls are
abstracted into oracle parameters where the surrounding control flow does
not inspect their content.
-/

namespace WolfSpec

/-- A player dict as kept by `GameState` (`game_state.py`, `add_player`):
`{id, name, role, is_alive, death_round, death_cause}` (the vote and
speech fields are irrelevant to the properties below and omitted). -/
structure PlayerRec where
  id : Nat
  name : String
  role : String
  isAlive : Bool
  deathRound : Option Nat
  deathCause : Option String
  deriving Repr, DecidableEq

/-- The slice of `GameState` the verified operations touch: the master
`players` list and the `alive_players` / `dead_players` lists (in Python
these hold references to the same dicts; here the aliasing is made
explicit by updating the master list whenever a kill or revive mutates a
player), plus `current_round`. -/
structure GState where
  players : List PlayerRec
  alivePlayers : List PlayerRec
  deadPlayers : List PlayerRec
  currentRound : Nat
  deriving Repr, DecidableEq

/-- First player with the given id, as the `for player in ...: if
player["id"] == player_id` scans do. -/
def findById (l : List PlayerRec) (pid : Nat) : Option PlayerRec :=
  l.find? (fun p => p.id == pid)

/-- `list.remove(x)` after `x` was located by a predicate scan: drop the
first element satisfying the predicate. -/
def removeFirstBy (pred : PlayerRec → Bool) : List PlayerRec → List PlayerRec
  | [] => []
  | p :: rest => if pred p then rest else p :: removeFirstBy pred rest

/-- The write-back `player.update(...)` on the first matching entry of the
master `players` list. -/
def replaceFirstBy (pred : PlayerRec → Bool) (q : PlayerRec) :
    List PlayerRec → List PlayerRec
  | [] => []
  | p :: rest => if pred p then q :: rest else p :: replaceFirstBy pred q rest

/-- `GameState.kill_player` (`game_state.py`): locate the player in
`alive_players`; if absent, warn and return `False` leaving the state
unchanged; otherwise set `is_alive = False`, stamp `death_round` with the
current round and `death_cause`, move the dict from `alive_players` to the
end of `dead_players`, and write the update back into `players`. -/
def kill_player (s : GState) (pid : Nat) (cause : String) : Bool × GState :=
  match findById s.alivePlayers pid with
  | none => (false, s)
  | some p =>
    let pk : PlayerRec :=
      { p with isAlive := false, deathRound := some s.currentRound,
               deathCause := some cause }
    (true,
      { s with
          alivePlayers := removeFirstBy (fun q => q.id == pid) s.alivePlayers,
          deadPlayers := s.deadPlayers ++ [pk],
          players := replaceFirstBy (fun q => q.id == pid) pk s.players })

/-- `GameState.revive_player` (`game_state.py`): locate a player in
`dead_players` with this id whose `death_round` equals the current round;
if absent return `False` with the state unchanged; otherwise clear the
death fields, move the dict back to the end of `alive_players`, and write
the update back into `players`. -/
def revive_player (s : GState) (pid : Nat) : Bool × GState :=
  match s.deadPlayers.find?
      (fun p => p.id == pid && p.deathRound == some s.currentRound) with
  | none => (false, s)
  | some p =>
    let pr : PlayerRec :=
      { p with isAlive := true, deathRound := none, deathCause := none }
    (true,
      { s with
          deadPlayers := removeFirstBy
            (fun q => q.id == pid && q.deathRound == some s.currentRound)
            s.deadPlayers,
          alivePlayers := s.alivePlayers ++ [pr],
          players := replaceFirstBy (fun q => q.id == pid) pr s.players })

/-- `GameState.get_player_by_id`: scan of the master `players` list. -/
def get_player_by_id (s : GState) (pid : Nat) : Option PlayerRec :=
  findById s.players pid

/-- The werewolf-kill result dict handed from `_handle_werewolf_kill` to
`_execute_night_deaths` and `_handle_witch_action` (`game_engine.py`):
only its `success` flag and `target` field are read there. -/
structure WolfResult where
  success : Bool
  target : Nat
  deriving Repr, DecidableEq

/-- The witch result dict produced by `_handle_witch_agent_action` /
`_fallback_witch_action` (`game_engine.py`): `success`, `action`
(`"save"`, `"poison"` or `"no_action"`) and `target`. -/
structure WitchResult where
  success : Bool
  action : String
  target : Nat
  deriving Repr, DecidableEq

/-- The death list computed by `GameEngine._execute_night_deaths`
(`game_engine.py`): start with the werewolf kill (cause 狼人击杀) if the
kill succeeded; a successful witch `save` populates `saves`, a successful
witch `poison` appends a death with cause 女巫毒杀; then every save target
filters the matching deaths out; the survivors of the filter are the
deaths that get applied via `kill_player`. -/
def execute_night_deaths_list (wolf : WolfResult) (witch : WitchResult) :
    List (Nat × String) :=
  let deaths := if wolf.success then [(wolf.target, "狼人击杀")] else []
  let saves := if witch.success && witch.action == "save"
    then [witch.target] else []
  let deaths := deaths ++
    (if witch.success && witch.action == "poison"
     then [(witch.target, "女巫毒杀")] else [])
  saves.foldl (fun ds sv => ds.filter (fun d => d.1 != sv)) deaths

/-- Applying the computed deaths to the game state, as the final loop of
`_execute_night_deaths` does through `kill_player`. -/
def execute_night_deaths (wolf : WolfResult) (witch : WitchResult)
    (s : GState) : GState :=
  (execute_night_deaths_list wolf witch).foldl
    (fun st d => (kill_player st d.1 d.2).2) s

/-- The night-death resolution as worded by the spec: the kill candidate
dies unless a save targets exactly that id, and a poison target dies
unconditionally (a save never shields a poison). Written from the spec
text, to be compared with `execute_night_deaths_list`. -/
def nightDeathsSpec (wolf : WolfResult) (witch : WitchResult) :
    List (Nat × String) :=
  (if wolf.success &&
      !(witch.success && witch.action == "save" &&
        witch.target == wolf.target)
   then [(wolf.target, "狼人击杀")] else []) ++
  (if witch.success && witch.action == "poison"
   then [(witch.target, "女巫毒杀")] else [])

/-- Witch potion state: `has_antidote`, `has_poison`, `saved_players`,
`poisoned_players` of `WitchAgent.__init__`
(`agents/role_agents/witch_agent.py`). -/
structure WitchPotionState where
  hasAntidote : Bool
  hasPoison : Bool
  savedPlayers : List Nat
  poisonedPlayers : List Nat
  deriving Repr, DecidableEq

/-- Both potions initially available, nothing used. -/
def witchInit : WitchPotionState :=
  { hasAntidote := true, hasPoison := true,
    savedPlayers := [], poisonedPlayers := [] }

/-- The action-result dict a witch night decision returns:
`{action, target_id, success}`. -/
structure WitchActionResult where
  action : String
  targetId : Option Nat
  success : Bool
  deriving Repr, DecidableEq

/-- `WitchAgent.update_state` (`agents/role_agents/witch_agent.py`): on a
`use_antidote` result flip `has_antidote` off and append the target to
`saved_players` (if truthy and not already there); on `use_poison`
likewise for the poison fields; otherwise do nothing. -/
def witch_update_state (st : WitchPotionState) (r : WitchActionResult) :
    WitchPotionState :=
  if r.action == "use_antidote" then
    let st := { st with hasAntidote := false }
    match r.targetId with
    | some t =>
      if t != 0 && !(st.savedPlayers.contains t) then
        { st with savedPlayers := st.savedPlayers ++ [t] }
      else st
    | none => st
  else if r.action == "use_poison" then
    let st := { st with hasPoison := false }
    match r.targetId with
    | some t =>
      if t != 0 && !(st.poisonedPlayers.contains t) then
        { st with poisonedPlayers := st.poisonedPlayers ++ [t] }
      else st
    | none => st
  else st

/-- `WitchTools.use_antidote` (`agents/tools/witch_tools.py`): refuse when
the antidote is gone, otherwise flip the flag, append the target and
report success.  (Reachable only through the `AgentRunner` tool-calling
path, which `WitchAgent.night_action` currently bypasses.) -/
def witch_tool_use_antidote (st : WitchPotionState) (targetId : Nat) :
    WitchActionResult × WitchPotionState :=
  if !st.hasAntidote then
    ({ action := "use_antidote", targetId := none, success := false }, st)
  else
    ({ action := "use_antidote", targetId := some targetId, success := true },
     { st with hasAntidote := false,
               savedPlayers := st.savedPlayers ++ [targetId] })

/-- `WitchTools.use_poison` (`agents/tools/witch_tools.py`): refuse when
the poison is gone or the target is the witch herself, otherwise flip the
flag and append the target. -/
def witch_tool_use_poison (st : WitchPotionState) (witchId targetId : Nat) :
    WitchActionResult × WitchPotionState :=
  if !st.hasPoison then
    ({ action := "use_poison", targetId := none, success := false }, st)
  else if targetId == witchId then
    ({ action := "use_poison", targetId := none, success := false }, st)
  else
    ({ action := "use_poison", targetId := some targetId, success := true },
     { st with hasPoison := false,
               poisonedPlayers := st.poisonedPlayers ++ [targetId] })

/-- What the regex scan of `WitchAgent._parse_agent_response` extracted
from the LLM response text: a `use_antidote` / `use_poison` marker with an
optional `target_id`, or nothing recognisable. -/
inductive WitchIntent where
  | antidote (targetId : Option Nat)
  | poison (targetId : Option Nat)
  | unparsed
  deriving Repr, DecidableEq

/-- `WitchAgent._parse_agent_response`
(`agents/role_agents/witch_agent.py`): a parsed `use_antidote` with a
truthy target while `has_antidote` holds yields the antidote result, a
parsed `use_poison` with a truthy target while `has_poison` holds yields
the poison result, everything else falls back to
`_get_default_potion_decision` (abstracted as the `dflt` argument).
No potion field is mutated here. -/
def witch_parse_agent_response (st : WitchPotionState) (intent : WitchIntent)
    (dflt : WitchActionResult) : WitchActionResult :=
  match intent with
  | .antidote (some t) =>
    if t != 0 && st.hasAntidote then
      { action := "use_antidote", targetId := some t, success := true }
    else dflt
  | .poison (some t) =>
    if t != 0 && st.hasPoison then
      { action := "use_poison", targetId := some t, success := true }
    else dflt
  | _ => dflt

/-- `WitchAgent.night_action` (`agents/role_agents/witch_agent.py`), agent
mode: with both potions spent return `no_action`; otherwise build the
prompt, call the LLM directly (bypassing the `AgentRunner` tools) and
parse the response.  The potion state is returned untouched: this method
mutates only `last_night_death` and the memory streams, and never calls
`update_state` (its own `_parse_agent_response` shadows the base-class one
that would). -/
def witch_agent_night_action (st : WitchPotionState) (intent : WitchIntent)
    (dflt : WitchActionResult) : WitchActionResult × WitchPotionState :=
  if !st.hasAntidote && !st.hasPoison then
    ({ action := "no_action", targetId := none, success := true }, st)
  else
    (witch_parse_agent_response st intent dflt, st)

/-- `GameEngine._handle_witch_agent_action` (`game_engine.py`): run the
agent night action and translate its result into the engine-side witch
result (`save` / `poison` / `no_action`), recording the night action.  The
engine never touches the potion flags on this path. -/
def handle_witch_agent_action (st : WitchPotionState) (intent : WitchIntent)
    (dflt : WitchActionResult) : WitchResult × WitchPotionState :=
  let ar := (witch_agent_night_action st intent dflt).1
  let st1 := (witch_agent_night_action st intent dflt).2
  if ar.success then
    if ar.action == "use_antidote" && ar.targetId.isSome then
      ({ success := true, action := "save", target := ar.targetId.getD 0 }, st1)
    else if ar.action == "use_poison" && ar.targetId.isSome then
      ({ success := true, action := "poison", target := ar.targetId.getD 0 }, st1)
    else
      ({ success := true, action := "no_action", target := 0 }, st1)
  else
    ({ success := false, action := "", target := 0 }, st1)

/-- The tonight-kill datum `death_info` built by
`GameEngine._handle_witch_action` (`game_engine.py`). -/
structure DeathInfo where
  target : Nat
  cause : String
  deriving Repr, DecidableEq

/-- Whether and with what extras the witch is consulted at night. -/
inductive WitchConsult where
  | notConsulted
  | consulted (deathInfo : Option DeathInfo)
  deriving Repr, DecidableEq

/-- The information flow of `GameEngine._handle_witch_action`
(`game_engine.py`): with both potions spent the witch is not called at
all; otherwise `death_info` is populated with the kill target and cause
`werewolf_kill` only when the werewolf kill succeeded *and* the witch
still has the antidote, and the witch is called with it (`None` is passed
as the empty dict, represented here by `none`). -/
def handle_witch_action_input (st : WitchPotionState) (wolf : WolfResult) :
    WitchConsult :=
  if !st.hasAntidote && !st.hasPoison then .notConsulted
  else
    .consulted
      (if wolf.success && st.hasAntidote
       then some { target := wolf.target, cause := "werewolf_kill" }
       else none)

/-- The six `game_memory` streams of `BaseAIAgent.__init__`
(`ai_agent.py`), generic over the entry payload. -/
structure GameMemoryStreams (α : Type) where
  speeches : List α
  votes : List α
  nightActions : List α
  observations : List α
  nightDiscussions : List α
  nightThinking : List α
  deriving Repr, DecidableEq

/-- Per-stream caps of `BaseAIAgent.__init__`. -/
structure MemoryLimits where
  maxMemoryEvents : Nat
  nightDiscussionLimit : Nat
  nightThinkingLimit : Nat
  deriving Repr, DecidableEq

/-- The overflow discipline `lst[-limit:]` of `update_memory`. -/
def capLast {α : Type} (limit : Nat) (l : List α) : List α :=
  if l.length > limit then l.drop (l.length - limit) else l

/-- `BaseAIAgent.update_memory` (`ai_agent.py`): append the entry to the
stream named `eventType` and trim to the stream cap — but only `if
event_type in self.game_memory`; any other name is silently ignored. -/
def update_memory {α : Type} (lim : MemoryLimits) (m : GameMemoryStreams α)
    (eventType : String) (e : α) : GameMemoryStreams α :=
  if eventType == "speeches" then
    { m with speeches := capLast lim.maxMemoryEvents (m.speeches ++ [e]) }
  else if eventType == "votes" then
    { m with votes := capLast lim.maxMemoryEvents (m.votes ++ [e]) }
  else if eventType == "night_actions" then
    { m with nightActions := capLast lim.maxMemoryEvents (m.nightActions ++ [e]) }
  else if eventType == "observations" then
    { m with observations := capLast lim.maxMemoryEvents (m.observations ++ [e]) }
  else if eventType == "night_discussions" then
    { m with nightDiscussions :=
        capLast lim.nightDiscussionLimit (m.nightDiscussions ++ [e]) }
  else if eventType == "night_thinking" then
    { m with nightThinking :=
        capLast lim.nightThinkingLimit (m.nightThinking ++ [e]) }
  else m

/-- `BaseAIAgent.observe_death` (`ai_agent.py`): builds the death entry
and hands it to `update_memory` under the event type `"observation"`
(singular). -/
def observe_death {α : Type} (lim : MemoryLimits) (m : GameMemoryStreams α)
    (entry : α) : GameMemoryStreams α :=
  update_memory lim m "observation" entry

/-- `BaseAIAgent.observe_vote` (`ai_agent.py`): builds the vote entry and
hands it to `update_memory` under the event type `"vote"` (singular). -/
def observe_vote {α : Type} (lim : MemoryLimits) (m : GameMemoryStreams α)
    (entry : α) : GameMemoryStreams α :=
  update_memory lim m "vote" entry

/-- Stable descending insertion by score, standing in for
`targets.sort(key=lambda x: x["divination_value"], reverse=True)` in
`_analyze_divination_targets`; only membership matters below. -/
def insertByValue (x : Nat × Int) : List (Nat × Int) → List (Nat × Int)
  | [] => [x]
  | y :: ys => if x.2 > y.2 then x :: y :: ys else y :: insertByValue x ys

/-- Descending sort by score via repeated insertion. -/
def sortByValueDesc (l : List (Nat × Int)) : List (Nat × Int) :=
  l.foldr insertByValue []

/-- `SpecialRolesThinkingSystem._analyze_divination_targets`
(`special_roles_thinking.py`): walk the alive players, skip only the seer
itself, score every remaining player with `_calculate_divination_value`
(a heuristic of the prior speeches, abstracted here as the `value`
oracle) and sort by descending score.  The seer vision history is not
consulted. -/
def analyze_divination_targets (alivePlayers : List PlayerRec)
    (seerId : Nat) (value : Nat → Int) : List (Nat × Int) :=
  sortByValueDesc
    ((alivePlayers.filter (fun p => p.id != seerId)).map
      (fun p => (p.id, value p.id)))

/-- The ids of the candidates offered to the seer. -/
def divinationCandidateIds (alivePlayers : List PlayerRec) (seerId : Nat)
    (value : Nat → Int) : List Nat :=
  (analyze_divination_targets alivePlayers seerId value).map (fun t => t.1)

/-- The candidate set as worded by the spec: live players minus the seer
minus every already-divined player.  Written from the spec text, to be
compared with `divinationCandidateIds`. -/
def divinationCandidatesSpec (alivePlayers : List PlayerRec) (seerId : Nat)
    (divined : List Nat) : List Nat :=
  (alivePlayers.filter
    (fun p => p.id != seerId && !(divined.contains p.id))).map (fun p => p.id)

/-- One entry of `vote_responses` in `VotingSystem.collect_votes`
(`voting_system.py`): an exception surfaced by `asyncio.gather`, the
`None` that `_collect_single_vote` returns after catching an exception
from `voter.vote`, or a `(target_id, reason)` pair. -/
inductive VoteResponse where
  | exc
  | failed
  | ok (target : Nat) (reason : String)
  deriving Repr, DecidableEq

/-- Whether the response is the `None` of a failed collection. -/
def VoteResponse.isFailed : VoteResponse → Bool
  | .failed => true
  | _ => false

/-- One counted vote: voter id, target id, `is_fallback` flag. -/
structure VoteDetail where
  voterId : Nat
  targetId : Nat
  isFallback : Bool
  deriving Repr, DecidableEq

/-- The response-processing loop of `VotingSystem.collect_votes`
(`voting_system.py`), walking the live voters paired with their gathered
responses (index `i` feeds the `random.choice(candidates)` oracle `rng`):
an exception is replaced by a random candidate with the fallback flag; a
`None` response is skipped without any counted vote; a returned target in
the candidate slate is counted as cast; a target outside the slate is
replaced by a random candidate with the fallback flag (all fallbacks only
when the slate is nonempty). -/
def collect_votes_details (candidates : List Nat) (rng : Nat → Nat) :
    Nat → List (Nat × VoteResponse) → List VoteDetail
  | _, [] => []
  | i, (vid, r) :: rest =>
    let tail := collect_votes_details candidates rng (i + 1) rest
    match r with
    | .exc =>
      if candidates.isEmpty then tail
      else { voterId := vid, targetId := rng i, isFallback := true } :: tail
    | .failed => tail
    | .ok t _ =>
      if candidates.contains t then
        { voterId := vid, targetId := t, isFallback := false } :: tail
      else if candidates.isEmpty then tail
      else { voterId := vid, targetId := rng i, isFallback := true } :: tail

/-- `VotingSystem.collect_votes` restricted to its observable outcome:
the list of counted votes for the live voters and their responses. -/
def collect_votes (voterResponses : List (Nat × VoteResponse))
    (candidates : List Nat) (rng : Nat → Nat) : List VoteDetail :=
  collect_votes_details candidates rng 0 voterResponses

/-- The total of the tally `vote_results`: each counted vote adds one. -/
def tally_total (voterResponses : List (Nat × VoteResponse))
    (candidates : List Nat) (rng : Nat → Nat) : Nat :=
  (collect_votes voterResponses candidates rng).length

/-- `max(votes.values())` over the tally, as a fold (`0` for an empty
tally, matching the guard in `calculate_result`). -/
def maxVotesOf (votes : List (Nat × Nat)) : Nat :=
  (votes.map (fun v => v.2)).foldl Nat.max 0

/-- The candidates holding the maximum count, in tally order — the
`winners` list of `VotingSystem.calculate_result`. -/
def winnersOf (votes : List (Nat × Nat)) : List Nat :=
  (votes.filter (fun v => v.2 == maxVotesOf votes)).map (fun v => v.1)

/-- The analysis dict of `VotingSystem.calculate_result`
(`voting_system.py`), keeping the fields the engine reads. -/
structure VoteAnalysis where
  winner : Option Nat
  isTie : Bool
  maxVotes : Nat
  tiedPlayers : List Nat
  deriving Repr, DecidableEq

/-- `VotingSystem.calculate_result` (`voting_system.py`): empty tally
gives the empty analysis; otherwise the max-holders are the winners, a
tie is more than one winner, the single winner is reported only without a
tie, and the tied players only with one. -/
def calculate_result (votes : List (Nat × Nat)) : VoteAnalysis :=
  if votes.isEmpty then
    { winner := none, isTie := false, maxVotes := 0, tiedPlayers := [] }
  else
    let winners := winnersOf votes
    let isTie := decide (winners.length > 1)
    { winner := if isTie then none else winners.head?,
      isTie := isTie,
      maxVotes := maxVotesOf votes,
      tiedPlayers := if isTie then winners else [] }

/-- The tie-handling dict `{action, target}` of `VotingSystem.handle_tie`. -/
structure TieResult where
  action : String
  target : Option Nat
  deriving Repr, DecidableEq

/-- `VotingSystem.handle_tie` (`voting_system.py`): no tied players is
`no_tie`; a single one is its own winner; several tied players require a
revote on the first vote and skip the elimination on a revote. -/
def handle_tie (tiedPlayers : List Nat) (isRevote : Bool) : TieResult :=
  match tiedPlayers with
  | [] => { action := "no_tie", target := none }
  | [t] => { action := "single_winner", target := some t }
  | _ =>
    if !isRevote then { action := "revote_required", target := none }
    else { action := "skip_elimination", target := none }

/-- `VotingSystem.execute_vote_result` (`voting_system.py`) for the
`elimination` execution type: no target is a successful no-op, a target
missing from the player list fails, otherwise the target is exiled via
`kill_player` with cause 投票放逐. -/
def execute_vote_result (s : GState) (target : Option Nat) : Bool × GState :=
  match target with
  | none => (true, s)
  | some t =>
    match get_player_by_id s t with
    | none => (false, s)
    | some _ => kill_player s t "投票放逐"

/-- The summary dict of `VotingSystem.conduct_full_vote`, keeping the
fields the engine reads. -/
structure FullVoteResult where
  finalTarget : Option Nat
  needsRevote : Bool
  tieAction : Option String
  executionSuccess : Bool
  deriving Repr, DecidableEq

/-- `VotingSystem.conduct_full_vote` (`voting_system.py`) after the votes
are tallied: analyse, run the tie handling when tied, and execute the
elimination only when a final target exists and no revote is pending. -/
def conduct_full_vote (s : GState) (votes : List (Nat × Nat))
    (isRevote : Bool) : FullVoteResult × GState :=
  let analysis := calculate_result votes
  let tie := if analysis.isTie
    then some (handle_tie analysis.tiedPlayers isRevote) else none
  let finalTarget := match tie with
    | some t => t.target
    | none => analysis.winner
  let needsRevote := match tie with
    | some t => t.action == "revote_required"
    | none => false
  if finalTarget.isSome && !needsRevote then
    let ex := execute_vote_result s finalTarget
    ({ finalTarget := finalTarget, needsRevote := needsRevote,
       tieAction := tie.map (fun t => t.action), executionSuccess := ex.1 },
     ex.2)
  else
    ({ finalTarget := finalTarget, needsRevote := needsRevote,
       tieAction := tie.map (fun t => t.action), executionSuccess := true }, s)

/-- Outcome shape of the engine voting phase. -/
inductive VotingPhaseResult where
  | skipped
  | conducted (first : FullVoteResult) (second : Option FullVoteResult)
  deriving Repr, DecidableEq

/-- `GameEngine._run_voting_phase` (`game_engine.py`): with at most two
live players the phase logs 存活玩家不足，跳过投票 and returns before any
vote is collected; otherwise the first full vote runs, and a pending
revote triggers the tie-defence speeches and a second full vote over the
tied candidates (the two tallies enter as oracles `votes1`, `votes2`
since they come from the agents). -/
def run_voting_phase (s : GState) (votes1 votes2 : List (Nat × Nat)) :
    VotingPhaseResult × GState :=
  if s.alivePlayers.length ≤ 2 then (.skipped, s)
  else
    let r1 := conduct_full_vote s votes1 false
    if r1.1.needsRevote then
      let r2 := conduct_full_vote r1.2 votes2 true
      (.conducted r1.1 (some r2.1), r2.2)
    else (.conducted r1.1 none, r1.2)

/-- The `no_action` outcome of `_get_default_potion_decision`, used below
as a concrete instance of the default-decision oracle. -/
def witchNoActionDefault : WitchActionResult :=
  { action := "no_action", targetId := none, success := true }

/-- A concrete three-seat roster for evaluating the operations. -/
def samplePlayers : List PlayerRec :=
  [{ id := 1, name := "甲", role := "seer", isAlive := true,
     deathRound := none, deathCause := none },
   { id := 2, name := "乙", role := "villager", isAlive := true,
     deathRound := none, deathCause := none },
   { id := 3, name := "丙", role := "werewolf", isAlive := true,
     deathRound := none, deathCause := none }]

/-- The concrete game state after setup with `samplePlayers`. -/
def sampleState : GState :=
  { players := samplePlayers, alivePlayers := samplePlayers,
    deadPlayers := [], currentRound := 1 }

/-- Claim C1: night resolution starts from the werewolf kill target, a
witch save removes exactly the deaths with the saved id (hence only the
werewolf kill), and a witch poison adds a death that is always applied —
the computed death list equals the death list the spec describes, for
every combination of werewolf result and witch action. -/
theorem night_deaths_match_spec (wolf : WolfResult) (witch : WitchResult) :
    execute_night_deaths_list wolf witch = nightDeathsSpec wolf witch := by
  obtain ⟨ws, wt⟩ := wolf
  obtain ⟨sub, act, tg⟩ := witch
  simp only [execute_night_deaths_list, nightDeathsSpec]
  by_cases hs : act = "save" <;> by_cases hp : act = "poison" <;>
    cases sub <;> cases ws <;>
      by_cases hw : tg = wt <;>
        simp_all [List.filter_cons, bne_iff_ne, beq_iff_eq, ne_comm]

/-- Claim C2 (code bug): on the agent-mode night path the engine applies
a witch save without ever consuming the antidote.  Starting from the
initial potion state, a night whose LLM response parses to `use_antidote`
on player 3 makes the engine report a save while the potion state is
returned unchanged (`has_antidote` still true, `saved_players` still
empty), so the next night can produce a second save; the
`WitchAgent.update_state` mechanism that would flip the flag and append
the target is never invoked on this path. -/
theorem witch_antidote_never_consumed :
    (handle_witch_agent_action witchInit
        (.antidote (some 3)) witchNoActionDefault).1
      = { success := true, action := "save", target := 3 } ∧
    (handle_witch_agent_action witchInit
        (.antidote (some 3)) witchNoActionDefault).2 = witchInit ∧
    witchInit.hasAntidote = true ∧
    (handle_witch_agent_action
        (handle_witch_agent_action witchInit
          (.antidote (some 3)) witchNoActionDefault).2
        (.antidote (some 5)) witchNoActionDefault).1
      = { success := true, action := "save", target := 5 } ∧
    (witch_update_state witchInit
        { action := "use_antidote", targetId := some 3, success := true
        }).hasAntidote = false ∧
    (witch_update_state witchInit
        { action := "use_antidote", targetId := some 3, success := true
        }).savedPlayers = [3] := by
  refine ⟨rfl, rfl, rfl, rfl, rfl, rfl⟩

/-- Claim C5 (code bug): `observe_death` and `observe_vote` pass the
event types `"observation"` and `"vote"`, but the memory streams are
keyed `"observations"` and `"votes"`, so `update_memory` silently drops
both entries: the calls leave the whole memory unchanged instead of
appending to the observations and votes streams. -/
theorem observe_signals_drop_entries {α : Type} (lim : MemoryLimits)
    (m : GameMemoryStreams α) (e : α) :
    observe_death lim m e = m ∧ observe_vote lim m e = m := by
  exact ⟨rfl, rfl⟩

/-- Claim C7: the tonight-kill datum reaches the witch iff the kill
succeeded and she still holds the antidote; with the antidote gone, the
input of her night-action call is independent of the werewolf result
(two-run noninterference over the death information). -/
theorem witch_death_info_gate :
    (∀ (st : WitchPotionState) (wolf : WolfResult) (i : Option DeathInfo),
        handle_witch_action_input st wolf = .consulted i →
        i.isSome = (wolf.success && st.hasAntidote)) ∧
    (∀ (hp : Bool) (sv po : List Nat) (wolf1 wolf2 : WolfResult),
        handle_witch_action_input
            { hasAntidote := false, hasPoison := hp,
              savedPlayers := sv, poisonedPlayers := po } wolf1 =
          handle_witch_action_input
            { hasAntidote := false, hasPoison := hp,
              savedPlayers := sv, poisonedPlayers := po } wolf2) := by
  constructor
  · intro st wolf i h
    simp only [handle_witch_action_input] at h
    split at h
    · exact absurd h (by simp)
    · rw [WitchConsult.consulted.injEq] at h
      subst h
      cases hc : (wolf.success && st.hasAntidote) <;> simp [hc]
  · intro hp sv po wolf1 wolf2
    simp [handle_witch_action_input]

/-- Witness for claim C7 at a concrete consultation. -/
theorem witch_death_info_gate_witness :
    Option.isSome
        (some ({ target := 4, cause := "werewolf_kill" } : DeathInfo))
      = (true && true) :=
  witch_death_info_gate.1 witchInit { success := true, target := 4 }
    (some { target := 4, cause := "werewolf_kill" }) rfl

/-- Claim C10: with at most two live players the voting phase is skipped
entirely — no vote is conducted and the state is returned unchanged. -/
theorem voting_phase_skipped (s : GState)
    (votes1 votes2 : List (Nat × Nat)) (h : s.alivePlayers.length ≤ 2) :
    run_voting_phase s votes1 votes2 = (.skipped, s) := by
  simp [run_voting_phase, h]

/-- A predicate failing on a prefix moves `find?` past it. -/
theorem find?_append_of_forall_false {α : Type} (pred : α → Bool)
    (l1 l2 : List α) (h : ∀ x ∈ l1, pred x = false) :
    (l1 ++ l2).find? pred = l2.find? pred := by
  induction l1 with
  | nil => rfl
  | cons a rest ih =>
    have ha : pred a = false := h a (by simp)
    simp only [List.cons_append, List.find?_cons, ha]
    exact ih (fun x hx => h x (by simp [hx]))

/-- A predicate failing on a prefix moves `removeFirstBy` past it. -/
theorem removeFirstBy_append_of_forall_false (pred : PlayerRec → Bool)
    (l1 l2 : List PlayerRec) (h : ∀ x ∈ l1, pred x = false) :
    removeFirstBy pred (l1 ++ l2) = l1 ++ removeFirstBy pred l2 := by
  induction l1 with
  | nil => rfl
  | cons a rest ih =>
    have ha : pred a = false := h a (by simp)
    simp only [List.cons_append, removeFirstBy, ha, Bool.false_eq_true,
      if_false, List.cons.injEq, true_and]
    exact ih (fun x hx => h x (by simp [hx]))

/-- Dropping the first match and re-appending it permutes the list. -/
theorem perm_removeFirstBy_append_of_find? (pred : PlayerRec → Bool)
    (l : List PlayerRec) (x : PlayerRec) (h : l.find? pred = some x) :
    (removeFirstBy pred l ++ [x]).Perm l := by
  induction l with
  | nil => simp at h
  | cons a rest ih =>
    by_cases hp : pred a = true
    · rw [List.find?_cons_of_pos _ hp] at h
      obtain rfl : a = x := by injection h
      simp only [removeFirstBy, hp, if_true]
      exact List.perm_append_singleton a rest
    · rw [List.find?_cons_of_neg _ hp] at h
      simp only [removeFirstBy, hp, if_false]
      exact (ih h).cons a

/-- Replacing the first match by itself is the identity. -/
theorem replaceFirstBy_self_of_find? (pred : PlayerRec → Bool)
    (l : List PlayerRec) (x : PlayerRec) (h : l.find? pred = some x) :
    replaceFirstBy pred x l = l := by
  induction l with
  | nil => rfl
  | cons a rest ih =>
    by_cases hp : pred a = true
    · rw [List.find?_cons_of_pos _ hp] at h
      obtain rfl : a = x := by injection h
      simp [replaceFirstBy, hp]
    · rw [List.find?_cons_of_neg _ hp] at h
      simp [replaceFirstBy, hp, ih h]

/-- Two successive first-match replacements collapse to the second when
the first replacement still matches the predicate. -/
theorem replaceFirstBy_replaceFirstBy (pred : PlayerRec → Bool)
    (l : List PlayerRec) (a b : PlayerRec) (ha : pred a = true) :
    replaceFirstBy pred b (replaceFirstBy pred a l)
      = replaceFirstBy pred b l := by
  induction l with
  | nil => rfl
  | cons c rest ih =>
    by_cases hp : pred c = true
    · simp [replaceFirstBy, hp, ha]
    · simp [replaceFirstBy, hp, ih]

/-- Claim C8: `kill_player` on an id absent from the alive list returns
`false` and leaves the state untouched; `revive_player` succeeds exactly
when some dead player carries this id with the current round as death
round, and any failing revive leaves the state untouched. -/
theorem kill_revive_error_handling :
    (∀ (s : GState) (pid : Nat) (cause : String),
        findById s.alivePlayers pid = none →
        kill_player s pid cause = (false, s)) ∧
    (∀ (s : GState) (pid : Nat),
        ((revive_player s pid).1 = true ↔
          ∃ p ∈ s.deadPlayers, p.id = pid ∧
            p.deathRound = some s.currentRound) ∧
        ((revive_player s pid).1 = false → (revive_player s pid).2 = s)) := by
  refine ⟨fun s pid cause h => by simp [kill_player, h], fun s pid => ?_⟩
  cases hf : s.deadPlayers.find?
      (fun p => p.id == pid && p.deathRound == some s.currentRound) with
  | none =>
    have hnone := List.find?_eq_none.mp hf
    refine ⟨⟨fun h => absurd h (by simp [revive_player, hf]), ?_⟩,
      fun _ => by simp [revive_player, hf]⟩
    rintro ⟨p, hmem, hid, hdr⟩
    exact absurd (by simp [hid, hdr]) (hnone p hmem)
  | some p =>
    have hpred := List.find?_some hf
    have hmem := List.mem_of_find?_eq_some hf
    simp only [Bool.and_eq_true, beq_iff_eq] at hpred
    refine ⟨⟨fun _ => ⟨p, hmem, hpred.1, hpred.2⟩, fun _ => ?_⟩, fun h => ?_⟩
    · simp [revive_player, hf]
    · exact absurd h (by simp [revive_player, hf])

/-- Witness for claim C8: killing an absent id is rejected, and reviving
a player dead since the current round succeeds. -/
theorem kill_revive_error_handling_witness :
    kill_player sampleState 9 "狼人击杀" = (false, sampleState) ∧
    ((revive_player ((kill_player sampleState 2 "狼人击杀").2) 2).1
      = true) := by
  constructor
  · exact kill_revive_error_handling.1 sampleState 9 "狼人击杀" rfl
  · refine (kill_revive_error_handling.2
      ((kill_player sampleState 2 "狼人击杀").2) 2).1.mpr ?_
    refine ⟨{ id := 2, name := "乙", role := "villager", isAlive := false,
              deathRound := some 1, deathCause := some "狼人击杀" },
            ?_, rfl, rfl⟩
    decide

/-- Claim C9: killing a live player and reviving them in the same round
restores the dead list exactly, the alive list up to permutation (the
revived player re-enters at the tail, as in the Python list discipline),
the master player list (hence the death fields) and the round counter;
both calls succeed.  The hypotheses state that the player is a live
roster member with clear death fields and no dead namesake — all
guaranteed for reachable states. -/
theorem kill_then_revive_roundtrip (s : GState) (pid : Nat) (cause : String)
    (p : PlayerRec)
    (hfind : findById s.alivePlayers pid = some p)
    (hmaster : findById s.players pid = some p)
    (halive : p.isAlive = true)
    (hdr : p.deathRound = none) (hdc : p.deathCause = none)
    (hdead : ∀ q ∈ s.deadPlayers, q.id ≠ pid) :
    (kill_player s pid cause).1 = true ∧
    (revive_player (kill_player s pid cause).2 pid).1 = true ∧
    ((revive_player (kill_player s pid cause).2 pid).2).deadPlayers
      = s.deadPlayers ∧
    ((revive_player (kill_player s pid cause).2 pid).2).alivePlayers.Perm
      s.alivePlayers ∧
    ((revive_player (kill_player s pid cause).2 pid).2).players
      = s.players ∧
    ((revive_player (kill_player s pid cause).2 pid).2).currentRound
      = s.currentRound := by
  have hpid : p.id = pid := by
    have := List.find?_some (by simpa [findById] using hfind)
    simpa using this
  set pk : PlayerRec := { p with isAlive := false, deathRound := some s.currentRound, deathCause := some cause } with hpk
  have hk1 : (kill_player s pid cause).1 = true := by
    simp [kill_player, hfind]
  have hk2 : (kill_player s pid cause).2 =
      { s with
          alivePlayers :=
            removeFirstBy (fun q => q.id == pid) s.alivePlayers,
          deadPlayers := s.deadPlayers ++ [pk],
          players := replaceFirstBy (fun q => q.id == pid) pk s.players } := by
    simp [kill_player, hfind, hpk]
  have hdeadfalse : ∀ q ∈ s.deadPlayers,
      (fun q => q.id == pid && q.deathRound == some s.currentRound) q
        = false := by
    intro q hq
    simp [hdead q hq]
  have hpredpk :
      (fun q => q.id == pid && q.deathRound == some s.currentRound) pk
        = true := by
    simp [hpk, hpid]
  have hfind2 :
      (s.deadPlayers ++ [pk]).find?
          (fun q => q.id == pid && q.deathRound == some s.currentRound)
        = some pk := by
    rw [find?_append_of_forall_false _ _ _ hdeadfalse]
    simp [List.find?_cons, hpredpk, hpid]
  have hpr :
      ({ pk with isAlive := true, deathRound := none, deathCause := none } : PlayerRec) = p := by
    cases p
    simp_all [hpk]
  have hr : revive_player
      ({ s with
          alivePlayers :=
            removeFirstBy (fun q => q.id == pid) s.alivePlayers,
          deadPlayers := s.deadPlayers ++ [pk],
          players := replaceFirstBy (fun q => q.id == pid) pk s.players })
      pid =
      (true,
        { s with
            alivePlayers :=
              removeFirstBy (fun q => q.id == pid) s.alivePlayers ++ [p],
            deadPlayers := removeFirstBy
              (fun q => q.id == pid && q.deathRound == some s.currentRound)
              (s.deadPlayers ++ [pk]),
            players := replaceFirstBy (fun q => q.id == pid) p
              (replaceFirstBy (fun q => q.id == pid) pk s.players) }) := by
    simp only [revive_player, hfind2, hpr]
  rw [hk1, hk2, hr]
  refine ⟨rfl, rfl, ?_, ?_, ?_, rfl⟩
  · rw [removeFirstBy_append_of_forall_false _ _ _ hdeadfalse]
    simp [removeFirstBy, hpredpk, hpid]
  · exact perm_removeFirstBy_append_of_find? _ _ _
      (by simpa [findById] using hfind)
  · rw [replaceFirstBy_replaceFirstBy _ _ _ _ (by simp [hpk, hpid])]
    exact replaceFirstBy_self_of_find? _ _ _
      (by simpa [findById] using hmaster)

/-- Witness for claim C9 on the concrete roster: killing then reviving
player 2 in round 1 restores the master list and both liveness lists. -/
theorem kill_then_revive_roundtrip_witness :
    (kill_player sampleState 2 "狼人击杀").1 = true ∧
    ((revive_player ((kill_player sampleState 2 "狼人击杀").2) 2).2).players
      = sampleState.players ∧
    ((revive_player ((kill_player sampleState 2 "狼人击杀").2) 2).2
      ).deadPlayers = sampleState.deadPlayers := by
  have h := kill_then_revive_roundtrip sampleState 2 "狼人击杀"
    { id := 2, name := "乙", role := "villager", isAlive := true,
      deathRound := none, deathCause := none }
    rfl rfl rfl rfl rfl (by decide)
  exact ⟨h.1, h.2.2.2.2.1, h.2.2.1⟩

/-- Claim C6: with a unique maximum holder the vote eliminates exactly
that candidate (the state passes through `execute_vote_result`, i.e.
`kill_player` with cause 投票放逐, whenever the winner is on the roster);
with several tied maximum holders, a first vote yields `revote_required`
with no target and an unchanged state, and a revote yields
`skip_elimination` with no target and an unchanged state. -/
theorem full_vote_outcomes (s : GState) (votes : List (Nat × Nat)) :
    (∀ (w : Nat) (r : Bool), winnersOf votes = [w] →
        (conduct_full_vote s votes r).1.finalTarget = some w ∧
        (conduct_full_vote s votes r).1.needsRevote = false ∧
        (conduct_full_vote s votes r).2 = (execute_vote_result s (some w)).2 ∧
        (∀ q, get_player_by_id s w = some q →
          (conduct_full_vote s votes r).2 = (kill_player s w "投票放逐").2)) ∧
    ((winnersOf votes).length > 1 →
        ((conduct_full_vote s votes false).1.finalTarget = none ∧
         (conduct_full_vote s votes false).1.needsRevote = true ∧
         (conduct_full_vote s votes false).1.tieAction
           = some "revote_required" ∧
         (conduct_full_vote s votes false).2 = s) ∧
        ((conduct_full_vote s votes true).1.finalTarget = none ∧
         (conduct_full_vote s votes true).1.needsRevote = false ∧
         (conduct_full_vote s votes true).1.tieAction
           = some "skip_elimination" ∧
         (conduct_full_vote s votes true).2 = s)) := by
  constructor
  · intro w r hw
    have hne : votes ≠ [] := by
      intro h
      rw [h] at hw
      simp [winnersOf, maxVotesOf] at hw
    have hcalc : calculate_result votes =
        { winner := some w, isTie := false, maxVotes := maxVotesOf votes,
          tiedPlayers := [] } := by
      rw [calculate_result, if_neg (by simp [List.isEmpty_iff, hne])]
      simp [hw]
    refine ⟨?_, ?_, ?_, ?_⟩ <;>
      simp [conduct_full_vote, hcalc, execute_vote_result]
    intro q hq
    simp [hq]
  · intro hlen
    have hne : votes ≠ [] := by
      intro h
      rw [h] at hlen
      simp [winnersOf, maxVotesOf] at hlen
    obtain ⟨a, b, rest, hW⟩ :
        ∃ a b rest, winnersOf votes = a :: b :: rest := by
      cases hw : winnersOf votes with
      | nil => rw [hw] at hlen; simp at hlen
      | cons a tl =>
        cases tl with
        | nil => rw [hw] at hlen; simp at hlen
        | cons b rest => exact ⟨a, b, rest, rfl⟩
    have ht : decide ((a :: b :: rest).length > 1) = true := by
      rw [decide_eq_true_eq, List.length_cons, List.length_cons]
      omega
    have hcalc : calculate_result votes =
        { winner := none, isTie := true, maxVotes := maxVotesOf votes,
          tiedPlayers := a :: b :: rest } := by
      rw [calculate_result, if_neg (by simp [List.isEmpty_iff, hne])]
      simp [hW, ht]
    constructor <;> refine ⟨?_, ?_, ?_, ?_⟩ <;>
      simp [conduct_full_vote, hcalc, handle_tie]

/-- Witness for claim C6 on concrete tallies over the sample state. -/
theorem full_vote_outcomes_witness :
    (conduct_full_vote sampleState [(2, 2), (3, 1)] false).1.finalTarget
      = some 2 ∧
    (conduct_full_vote sampleState [(2, 1), (3, 1)] false).1.tieAction
      = some "revote_required" ∧
    (conduct_full_vote sampleState [(2, 1), (3, 1)] true).1.tieAction
      = some "skip_elimination" := by
  have h1 := (full_vote_outcomes sampleState [(2, 2), (3, 1)]).1 2 false
    (by decide)
  have h2 := (full_vote_outcomes sampleState [(2, 1), (3, 1)]).2 (by decide)
  exact ⟨h1.1, h2.1.2.2.1, h2.2.2.2.1⟩

/-- The counted votes are the non-`None` responses, one each. -/
theorem collect_votes_details_length (candidates : List Nat)
    (rng : Nat → Nat) (hc : candidates ≠ [])
    (l : List (Nat × VoteResponse)) :
    ∀ i, (collect_votes_details candidates rng i l).length
      = (l.filter (fun pr => !pr.2.isFailed)).length := by
  have hce : candidates.isEmpty = false := by simp [List.isEmpty_iff, hc]
  induction l with
  | nil => intro i; rfl
  | cons a rest ih =>
    intro i
    obtain ⟨vid, r⟩ := a
    cases r with
    | exc =>
      simp [collect_votes_details, hce, ih, VoteResponse.isFailed,
        List.filter_cons]
    | failed =>
      simp [collect_votes_details, ih, VoteResponse.isFailed,
        List.filter_cons]
    | ok t reason =>
      by_cases hm : t ∈ candidates <;>
        simp [collect_votes_details, hce, hm, ih, VoteResponse.isFailed,
          List.filter_cons]

/-- Every counted vote targets a slate member. -/
theorem collect_votes_details_targets (candidates : List Nat)
    (rng : Nat → Nat) (hrng : ∀ j, rng j ∈ candidates)
    (l : List (Nat × VoteResponse)) :
    ∀ i d, d ∈ collect_votes_details candidates rng i l →
      d.targetId ∈ candidates := by
  have hc : candidates ≠ [] := by
    intro h
    have := hrng 0
    simp [h] at this
  have hce : candidates.isEmpty = false := by simp [List.isEmpty_iff, hc]
  induction l with
  | nil => intro i d hd; simp [collect_votes_details] at hd
  | cons a rest ih =>
    intro i d hd
    obtain ⟨vid, r⟩ := a
    cases r with
    | exc =>
      simp [collect_votes_details, hce] at hd
      rcases hd with rfl | hd
      · exact hrng i
      · exact ih (i + 1) d hd
    | failed =>
      simp [collect_votes_details] at hd
      exact ih (i + 1) d hd
    | ok t reason =>
      by_cases hm : t ∈ candidates
      · simp [collect_votes_details, hm] at hd
        rcases hd with rfl | hd
        · exact hm
        · exact ih (i + 1) d hd
      · simp [collect_votes_details, hm, hce] at hd
        rcases hd with rfl | hd
        · exact hrng i
        · exact ih (i + 1) d hd

/-- Claim C3 (amended): on a nonempty slate with a legal fallback oracle,
each voter whose collected response is not the `None` of a failed
collection contributes exactly one counted vote, every counted vote
targets a slate member, and thus the tally totals the number of voters
with non-`None` responses (raising calls are caught inside
`_collect_single_vote`, return `None` and are dropped without any
fallback vote). -/
theorem collect_votes_counts_non_failed
    (voterResponses : List (Nat × VoteResponse)) (candidates : List Nat)
    (rng : Nat → Nat) (hc : candidates ≠ [])
    (hrng : ∀ j, rng j ∈ candidates) :
    tally_total voterResponses candidates rng
      = (voterResponses.filter (fun pr => !pr.2.isFailed)).length ∧
    ∀ d ∈ collect_votes voterResponses candidates rng,
      d.targetId ∈ candidates :=
  ⟨collect_votes_details_length candidates rng hc voterResponses 0,
   fun d hd =>
     collect_votes_details_targets candidates rng hrng voterResponses 0 d hd⟩

/-- Witness for the amended claim C3: one exception surfaced by the
gather, one out-of-slate vote and one legal vote all get counted. -/
theorem collect_votes_counts_non_failed_witness :
    tally_total
        [(4, VoteResponse.exc), (5, VoteResponse.ok 9 "怀疑"),
         (6, VoteResponse.ok 2 "怀疑")] [2, 3] (fun _ => 3)
      = (List.filter (fun pr => !pr.2.isFailed)
          [(4, VoteResponse.exc), (5, VoteResponse.ok 9 "怀疑"),
           (6, VoteResponse.ok 2 "怀疑")]).length :=
  (collect_votes_counts_non_failed
    [(4, VoteResponse.exc), (5, VoteResponse.ok 9 "怀疑"),
     (6, VoteResponse.ok 2 "怀疑")] [2, 3] (fun _ => 3)
    (by decide) (fun j => by simp)).1

/-- Counterexample to claim C3 as stated: two live voters, one vote call
that raises (collected as `None`), tally totals 1, not 2 — the dropped
voter contributes no counted vote at all. -/
theorem collect_votes_tally_undercounts :
    tally_total [(7, VoteResponse.ok 1 "怀疑"), (8, VoteResponse.failed)]
        [1, 2] (fun _ => 1) = 1 ∧
    List.length [(7, VoteResponse.ok 1 "怀疑"), (8, VoteResponse.failed)]
      = 2 :=
  ⟨rfl, rfl⟩

/-- Membership through score insertion. -/
theorem mem_insertByValue (x y : Nat × Int) (l : List (Nat × Int)) :
    y ∈ insertByValue x l ↔ y = x ∨ y ∈ l := by
  induction l with
  | nil => simp [insertByValue]
  | cons h t ih =>
    simp only [insertByValue]
    split
    · simp [List.mem_cons]
    · simp only [List.mem_cons, ih]
      tauto

/-- Membership through the descending score sort. -/
theorem mem_sortByValueDesc (y : Nat × Int) (l : List (Nat × Int)) :
    y ∈ sortByValueDesc l ↔ y ∈ l := by
  induction l with
  | nil => simp [sortByValueDesc]
  | cons h t ih =>
    simp only [sortByValueDesc, List.foldr_cons] at ih ⊢
    rw [mem_insertByValue]
    simp [ih]

/-- Characterisation of the seer candidate list computed by
`_analyze_divination_targets`: exactly the live ids other than the seer,
for every score oracle. -/
theorem mem_divinationCandidateIds (alive : List PlayerRec) (seerId : Nat)
    (value : Nat → Int) (x : Nat) :
    x ∈ divinationCandidateIds alive seerId value ↔
      (∃ p ∈ alive, p.id = x) ∧ x ≠ seerId := by
  simp only [divinationCandidateIds, analyze_divination_targets,
    List.mem_map, mem_sortByValueDesc, List.mem_filter, bne_iff_ne]
  constructor
  · rintro ⟨pr, ⟨p, ⟨hp, hne⟩, hpair⟩, hx⟩
    subst hpair
    refine ⟨⟨p, hp, hx⟩, fun h => hne (Eq.trans hx h)⟩
  · rintro ⟨⟨p, hp, rfl⟩, hne⟩
    exact ⟨(p.id, value p.id), ⟨p, ⟨hp, hne⟩, rfl⟩, rfl⟩

/-- Claim C4 (amended): for every night the divination candidate set is
exactly the live players minus the seer itself — already-divined players
are *not* excluded (the thinking system never consults
`vision_results`), so only the self-exclusion half of the original claim
holds. -/
theorem divination_candidates_exclude_only_seer (alive : List PlayerRec)
    (seerId : Nat) (value : Nat → Int) :
    (∀ x, x ∈ divinationCandidateIds alive seerId value ↔
        (∃ p ∈ alive, p.id = x) ∧ x ≠ seerId) ∧
    seerId ∉ divinationCandidateIds alive seerId value := by
  refine ⟨mem_divinationCandidateIds alive seerId value, fun h => ?_⟩
  exact ((mem_divinationCandidateIds alive seerId value seerId).mp h).2 rfl

/-- Witness for the amended claim C4 on the concrete roster: the seer
itself is not among its own divination candidates. -/
theorem divination_candidates_exclude_only_seer_witness :
    1 ∉ divinationCandidateIds samplePlayers 1 (fun _ => 0) :=
  (divination_candidates_exclude_only_seer samplePlayers 1 (fun _ => 0)).2

/-- Counterexample to claim C4 as stated: with the seer (id 1) and one
already-divined live player (id 2), the code still offers id 2 as a
candidate while the spec candidate set is empty. -/
theorem divined_player_still_candidate :
    divinationCandidateIds (samplePlayers.take 2) 1 (fun _ => 0) = [2] ∧
    divinationCandidatesSpec (samplePlayers.take 2) 1 [2] = [] :=
  ⟨rfl, rfl⟩

/-- Witness for claim C10 on a concrete two-player state. -/
theorem voting_phase_skipped_witness :
    run_voting_phase
        { players := samplePlayers, alivePlayers := samplePlayers.take 2,
          deadPlayers := [], currentRound := 2 } [(1, 2)] [(2, 1)]
      = (.skipped,
         { players := samplePlayers, alivePlayers := samplePlayers.take 2,
           deadPlayers := [], currentRound := 2 }) :=
  voting_phase_skipped _ _ _ (by decide)

end WolfSpec
